import Mathlib

/-!
Shallow embedding of `src/dev/src/transaction.js` (the `Transaction` class of a
Firestore client): the transaction attempt state machine with its read-after-write
guard, variadic `getAll`, buffered writes, retry construction, `begin` and `commit`.

External collaborators (`WriteBatch`, `DocumentGroup`, the argument validator, the
RPC layer) are not under `src/`; where their behaviour matters they are modelled
from the spec, as noted in doc comments.
-/

/-- Opaque server-assigned transaction identifier (`resp.transaction`). -/
abbrev TxId := Nat

/-- Opaque document snapshot returned by a read. -/
abbrev Snapshot := Nat

/-- Opaque query result snapshot. -/
abbrev QuerySnapshot := Nat

/-- A `Query` object (external collaborator from `./reference`); kept opaque. -/
structure Query where
  id : Nat
deriving DecidableEq, Repr

/-- The Firestore client context; only `formattedName` is read by the embedded code. -/
structure Firestore where
  formattedName : String
deriving DecidableEq, Repr

/-- Universe of JavaScript values the embedded methods inspect: document
references, queries, arrays (for `getAll`'s array-or-varargs normalization), and
anything else (`other`). -/
inductive JsVal where
  | docRef (path : String)
  | query (q : Query)
  | arr (elems : List JsVal)
  | other
deriving Repr

/-- Error message thrown on reads executed after writes (`READ_AFTER_WRITE_ERROR_MSG`). -/
def READ_AFTER_WRITE_ERROR_MSG : String :=
  "Firestore transactions require all reads to be executed before all writes."

/-- Error message thrown by `get` on an argument that is neither a
`DocumentReference` nor a `Query`. -/
def INVALID_REF_OR_QUERY_MSG : String :=
  "Argument \"refOrQuery\" must be a DocumentRef or a Query."

/-- Errors surfaced by the embedded methods: `thrown msg` is a plain
`new Error(msg)` raised in `transaction.js` itself; the `validator…` constructors
are the validator collaborator's failures (the validator is repository code not
under `src/`, modelled from the spec: a non-conforming `getAll` element fails
with an error identifying its position, and `update` with fewer than the
minimum number of arguments fails). -/
inductive JsErr where
  | thrown (message : String)
  | validatorNotDocumentReference (position : Nat)
  | validatorMinNumberOfArguments (funcName : String) (minSize : Nat)
deriving DecidableEq, Repr

/-- The read-after-write error, which the spec's taxonomy calls `SequencingError`. -/
def sequencingError : JsErr := JsErr.thrown READ_AFTER_WRITE_ERROR_MSG

/-- One buffered write operation, as handed to the write batch. -/
inductive WriteOp where
  | create (documentRef : JsVal) (data : JsVal)
  | set (documentRef : JsVal) (data : JsVal) (options : Option JsVal)
  | update (documentRef : JsVal) (dataOrField : JsVal) (preconditionOrValues : List JsVal)
  | delete (documentRef : JsVal) (precondition : Option JsVal)
deriving Repr

/-- Modelled from the spec: the `WriteBatch` collaborator (its source is not under
`src/`) is an ordered sequence of pending write operations; each write method
appends one operation, and the empty state is queryable. -/
abbrev WriteBatch := List WriteOp

/-- Modelled from the spec: `WriteBatch`'s "is empty" query. -/
def WriteBatch.isEmpty (b : WriteBatch) : Bool := List.isEmpty b

/-- A transaction attempt: mirrors the fields set by the `Transaction`
constructor (`_firestore`, `_previousTransaction`, `_writeBatch`, `_requestTag`)
plus `_transactionId`, which is undefined (`none`) until `begin` succeeds. -/
structure Transaction where
  firestore : Firestore
  previousTransaction : Option Transaction
  writeBatch : WriteBatch
  requestTag : Nat
  transactionId : Option TxId

/-- The `Transaction` constructor: stores the client and the optional previous
attempt, obtains a fresh empty write batch from `firestore.batch()` (modelled
from the spec: a new batch buffers nothing), and reuses the previous attempt's
`requestTag` when retrying, otherwise uses the freshly generated tag
(`requestTag()` from `./util` is modelled as the supplied `generatedTag`). -/
def Transaction.construct (firestore : Firestore) (previousTransaction : Option Transaction)
    (generatedTag : Nat) : Transaction :=
  { firestore := firestore
    previousTransaction := previousTransaction
    writeBatch := []
    requestTag :=
      match previousTransaction with
      | some prev => prev.requestTag
      | none => generatedTag
    transactionId := none }

/-- A `DocumentGroup` as constructed by `getAll`: the client, the reference list
and the transaction id option. -/
structure DocumentGroup where
  firestore : Firestore
  documents : List JsVal
  transactionId : Option TxId

/-- The environment supplies the behaviour of the network-facing collaborators,
all modelled from the spec: `fetch` is the per-document result of a
`DocumentGroup` read under an optional transaction id, `queryGet` is
`Query._get`, and `beginResp` is the server's `resp.transaction` answer to a
`beginTransaction` request. -/
structure Env where
  fetch : JsVal → Option TxId → Snapshot
  queryGet : Query → Option TxId → QuerySnapshot
  beginResp : Firestore → Option (Option TxId) → TxId

/-- Modelled from the spec: `DocumentGroup.get` performs a batched fetch and
returns snapshots preserving input order (duplicates allowed, each returned
independently per its own reference). -/
def DocumentGroup.get (env : Env) (dg : DocumentGroup) : List Snapshot :=
  dg.documents.map (fun d => env.fetch d dg.transactionId)

/-- Modelled from the spec: `validator.isDocumentReference(i, v)` accepts exactly
document references; `getAll`'s loop fails at the first non-conforming element,
identifying its position. Returns that position, or `none` when all conform. -/
def firstNonDocumentReference (start : Nat) : List JsVal → Option Nat
  | [] => none
  | JsVal.docRef _ :: rest => firstNonDocumentReference (start + 1) rest
  | _ :: _ => some start

/-- `getAll`'s argument normalization: `arguments[0]` an array means take that
array (a `slice()` copy), otherwise take the whole `arguments` list. -/
def normalizeGetAllArgs (args : List JsVal) : List JsVal :=
  match args with
  | JsVal.arr elems :: _ => elems
  | _ => args

/-- `Transaction.getAll` up to (and including) constructing the `DocumentGroup`:
the read-after-write guard, argument normalization, and per-element validation. -/
def Transaction.getAllCore (t : Transaction) (args : List JsVal) :
    Except JsErr DocumentGroup :=
  if ! WriteBatch.isEmpty t.writeBatch then
    Except.error sequencingError
  else
    let documents := normalizeGetAllArgs args
    match firstNonDocumentReference 0 documents with
    | some i => Except.error (JsErr.validatorNotDocumentReference i)
    | none =>
        Except.ok
          { firestore := t.firestore
            documents := documents
            transactionId := t.transactionId }

/-- `Transaction.getAll`: delegates to the constructed `DocumentGroup`'s `get`. -/
def Transaction.getAll (env : Env) (t : Transaction) (args : List JsVal) :
    Except JsErr (List Snapshot) :=
  (t.getAllCore args).map (DocumentGroup.get env)

/-- Result of `Transaction.get`: a document snapshot (the destructured first
element of the `getAll` result, `undefined` — `none` — when absent) or a query
snapshot. -/
inductive GetResult where
  | doc (snapshot : Option Snapshot)
  | query (qsnap : QuerySnapshot)
deriving DecidableEq, Repr

/-- `Transaction.get`: the read-after-write guard, then dispatch on the runtime
type of `refOrQuery` — a document reference delegates to `getAll` and unwraps
the first element; a query runs `refOrQuery._get(this._transactionId)`; anything
else throws. -/
def Transaction.get (env : Env) (t : Transaction) (refOrQuery : JsVal) :
    Except JsErr GetResult :=
  if ! WriteBatch.isEmpty t.writeBatch then
    Except.error sequencingError
  else
    match refOrQuery with
    | JsVal.docRef p =>
        (t.getAll env [JsVal.docRef p]).map (fun snaps => GetResult.doc snaps.head?)
    | JsVal.query q =>
        Except.ok (GetResult.query (env.queryGet q t.transactionId))
    | _ => Except.error (JsErr.thrown INVALID_REF_OR_QUERY_MSG)

/-- `Transaction.create`: appends one create operation to the write batch and
returns the (updated) transaction for chaining. -/
def Transaction.create (t : Transaction) (documentRef data : JsVal) : Transaction :=
  { t with writeBatch := t.writeBatch ++ [WriteOp.create documentRef data] }

/-- `Transaction.set`: appends one set operation (options may be undefined). -/
def Transaction.set (t : Transaction) (documentRef data : JsVal)
    (options : Option JsVal) : Transaction :=
  { t with writeBatch := t.writeBatch ++ [WriteOp.set documentRef data options] }

/-- `Transaction.update`: first `validator.minNumberOfArguments('update',
arguments, 2)` (modelled from the spec: fewer than two total arguments fails),
then slices the trailing arguments and appends one update operation. The pair
returned is the attempt state after the call together with the error thrown, if
any (a throw happens before any mutation). -/
def Transaction.update (t : Transaction) (args : List JsVal) :
    Transaction × Option JsErr :=
  match args with
  | documentRef :: dataOrField :: preconditionOrValues =>
      ({ t with
          writeBatch :=
            t.writeBatch ++ [WriteOp.update documentRef dataOrField preconditionOrValues] },
        none)
  | _ => (t, some (JsErr.validatorMinNumberOfArguments "update" 2))

/-- `Transaction.delete`: appends one delete operation (precondition optional). -/
def Transaction.delete (t : Transaction) (documentRef : JsVal)
    (precondition : Option JsVal) : Transaction :=
  { t with writeBatch := t.writeBatch ++ [WriteOp.delete documentRef precondition] }

/-- The `beginTransaction` request built by `begin()`: the database name, and —
only when this attempt has a previous attempt — `options.readWrite.retryTransaction`
set to that previous attempt's `_transactionId`. The retry marker is represented
as `Option (Option TxId)`: the outer layer is the presence of `options`, the
inner the previous attempt's (possibly still unset) id. -/
structure BeginRequest where
  database : String
  retryTransaction : Option (Option TxId)
deriving DecidableEq, Repr

/-- Builds the request object of `Transaction.begin`. -/
def Transaction.beginRequest (t : Transaction) : BeginRequest :=
  { database := t.firestore.formattedName
    retryTransaction := t.previousTransaction.map (fun prev => prev.transactionId) }

/-- `Transaction.begin` (success path): sends the request and stores the
server's `resp.transaction` into `_transactionId`. -/
def Transaction.begin (env : Env) (t : Transaction) : Transaction :=
  { t with
      transactionId :=
        some (env.beginResp t.firestore (t.beginRequest).retryTransaction) }

/-- Modelled from the spec: the commit RPC request assembled by the write
batch's `commit_` carries the transaction id, the request tag, and the ordered
write list from the batch. -/
structure CommitRequest where
  transactionId : Option TxId
  requestTag : Nat
  writes : List WriteOp

/-- `Transaction.commit`: delegates to `this._writeBatch.commit_({transactionId,
requestTag})`; the request it causes to be sent. -/
def Transaction.commit (t : Transaction) : CommitRequest :=
  { transactionId := t.transactionId
    requestTag := t.requestTag
    writes := t.writeBatch }

/-- One user-visible operation on an attempt, for reasoning about sequences of
calls issued by a transaction function. -/
inductive TxAction where
  | create (documentRef data : JsVal)
  | set (documentRef data : JsVal) (options : Option JsVal)
  | update (args : List JsVal)
  | delete (documentRef : JsVal) (precondition : Option JsVal)
  | get (refOrQuery : JsVal)
  | getAll (args : List JsVal)
  | begin
deriving Repr

/-- The attempt state after one operation: writes mutate the batch, reads
(`get`/`getAll`) never touch the attempt state, `begin` only sets the id. -/
def stepAction (env : Env) (t : Transaction) : TxAction → Transaction
  | TxAction.create r d => t.create r d
  | TxAction.set r d o => t.set r d o
  | TxAction.update args => (t.update args).1
  | TxAction.delete r p => t.delete r p
  | TxAction.get _ => t
  | TxAction.getAll _ => t
  | TxAction.begin => t.begin env

/-- The attempt state after a sequence of operations, in issue order. -/
def runActions (env : Env) (t : Transaction) (acts : List TxAction) : Transaction :=
  acts.foldl (stepAction env) t

/-- The write operations a single operation buffers: exactly one for each
successful `create`/`set`/`update`/`delete`, none for reads, `begin`, or an
`update` rejected by the arity validator. -/
def TxAction.bufferedOps : TxAction → List WriteOp
  | TxAction.create r d => [WriteOp.create r d]
  | TxAction.set r d o => [WriteOp.set r d o]
  | TxAction.update (documentRef :: dataOrField :: preconditionOrValues) =>
      [WriteOp.update documentRef dataOrField preconditionOrValues]
  | TxAction.update _ => []
  | TxAction.delete r p => [WriteOp.delete r p]
  | TxAction.get _ => []
  | TxAction.getAll _ => []
  | TxAction.begin => []

/-- The write operations a sequence of operations buffers, in issue order. -/
def bufferedOps (acts : List TxAction) : List WriteOp :=
  (acts.map TxAction.bufferedOps).flatten

/-! ## Helper lemmas and concrete fixtures -/

/-- A concrete environment for evaluating the embedding on closed inputs. -/
def env0 : Env :=
  { fetch := fun _ _ => 0
    queryGet := fun _ _ => 0
    beginResp := fun _ _ => 0 }

/-- A concrete client context. -/
def fs0 : Firestore := { formattedName := "projects/p/databases/d" }

/-- A fresh attempt (no previous attempt, generated tag 7). -/
def p0 : Transaction := Transaction.construct fs0 none 7

/-- A retry attempt constructed from `p0` (generated tag 9, which must be ignored). -/
def tRetry : Transaction := Transaction.construct fs0 (some p0) 9

/-- A fresh attempt on which one `create` has been buffered. -/
def t1 : Transaction := p0.create (JsVal.docRef "col/doc") JsVal.other

lemma isEmpty_false_of_ne_nil {b : WriteBatch} (h : b ≠ []) :
    WriteBatch.isEmpty b = false := by
  cases b with
  | nil => exact absurd rfl h
  | cons x xs => rfl

lemma get_error_of_not_isEmpty (env : Env) (t : Transaction) (v : JsVal)
    (h : WriteBatch.isEmpty t.writeBatch = false) :
    Transaction.get env t v = Except.error sequencingError := by
  simp [Transaction.get, h]

lemma getAll_error_of_not_isEmpty (env : Env) (t : Transaction) (args : List JsVal)
    (h : WriteBatch.isEmpty t.writeBatch = false) :
    Transaction.getAll env t args = Except.error sequencingError := by
  simp [Transaction.getAll, Transaction.getAllCore, h, Except.map]

lemma firstNonDocumentReference_map_docRef (start : Nat) (docs : List String) :
    firstNonDocumentReference start (docs.map JsVal.docRef) = none := by
  induction docs generalizing start with
  | nil => rfl
  | cons d rest ih => simpa [firstNonDocumentReference] using ih (start + 1)

lemma normalizeGetAllArgs_map_docRef (docs : List String) :
    normalizeGetAllArgs (docs.map JsVal.docRef) = docs.map JsVal.docRef := by
  cases docs with
  | nil => rfl
  | cons d rest => rfl

lemma getAllCore_of_docRefs (t : Transaction) (docs : List String)
    (h : t.writeBatch = []) :
    Transaction.getAllCore t (docs.map JsVal.docRef) =
      Except.ok ⟨t.firestore, docs.map JsVal.docRef, t.transactionId⟩ := by
  simp [Transaction.getAllCore, WriteBatch.isEmpty, h, normalizeGetAllArgs_map_docRef,
    firstNonDocumentReference_map_docRef]

lemma getAllCore_of_arr_docRefs (t : Transaction) (docs : List String)
    (h : t.writeBatch = []) :
    Transaction.getAllCore t [JsVal.arr (docs.map JsVal.docRef)] =
      Except.ok ⟨t.firestore, docs.map JsVal.docRef, t.transactionId⟩ := by
  simp [Transaction.getAllCore, WriteBatch.isEmpty, h, normalizeGetAllArgs,
    firstNonDocumentReference_map_docRef]

lemma writeBatch_stepAction (env : Env) (t : Transaction) (a : TxAction) :
    (stepAction env t a).writeBatch = t.writeBatch ++ a.bufferedOps := by
  cases a with
  | create r d => rfl
  | set r d o => rfl
  | update args =>
      cases args with
      | nil => simp [stepAction, Transaction.update, TxAction.bufferedOps]
      | cons x rest =>
          cases rest with
          | nil => simp [stepAction, Transaction.update, TxAction.bufferedOps]
          | cons y rest2 => rfl
  | delete r p => rfl
  | get v => simp [stepAction, TxAction.bufferedOps]
  | getAll args => simp [stepAction, TxAction.bufferedOps]
  | begin => simp [stepAction, TxAction.bufferedOps, Transaction.begin]

lemma writeBatch_runActions (env : Env) (t : Transaction) (acts : List TxAction) :
    (runActions env t acts).writeBatch = t.writeBatch ++ bufferedOps acts := by
  induction acts generalizing t with
  | nil => simp [runActions, bufferedOps]
  | cons a rest ih =>
      have h1 : runActions env t (a :: rest) = runActions env (stepAction env t a) rest := rfl
      rw [h1, ih, writeBatch_stepAction]
      simp [bufferedOps, List.flatten]

lemma seq_ne_invalid_arg : sequencingError ≠ JsErr.thrown INVALID_REF_OR_QUERY_MSG := by
  decide

/-! ## Claims -/

/-- Claim C1: for every transaction attempt, calling a read operation (`get` or
`getAll`) while the attempt's write batch is non-empty fails with the
sequencing (read-after-write) error, regardless of prior reads; the check is
re-evaluated on every read call (both reads guard on the current batch state). -/
theorem read_after_write_guard (env : Env) (t : Transaction) (refOrQuery : JsVal)
    (args : List JsVal) (h : WriteBatch.isEmpty t.writeBatch = false) :
    Transaction.get env t refOrQuery = Except.error sequencingError ∧
    Transaction.getAll env t args = Except.error sequencingError :=
  ⟨get_error_of_not_isEmpty env t refOrQuery h,
   getAll_error_of_not_isEmpty env t args h⟩

/-- Witness for C1 at a concrete attempt with one buffered `create`. -/
theorem read_after_write_guard_witness :
    WriteBatch.isEmpty t1.writeBatch = false ∧
    Transaction.get env0 t1 (JsVal.docRef "col/other") = Except.error sequencingError ∧
    Transaction.getAll env0 t1 [JsVal.docRef "col/other"] = Except.error sequencingError :=
  ⟨rfl,
   (read_after_write_guard env0 t1 (JsVal.docRef "col/other") [JsVal.docRef "col/other"] rfl).1,
   (read_after_write_guard env0 t1 (JsVal.docRef "col/other") [JsVal.docRef "col/other"] rfl).2⟩

/-- Claim C2: for a single document reference, `get` delegates to `getAll` with
that one reference — `getAll` returns a one-element sequence and `get` returns
exactly that sole element, unwrapped. -/
theorem get_single_doc_unwraps_getAll (env : Env) (t : Transaction) (path : String)
    (h : t.writeBatch = []) :
    Transaction.getAll env t [JsVal.docRef path] =
      Except.ok [env.fetch (JsVal.docRef path) t.transactionId] ∧
    Transaction.get env t (JsVal.docRef path) =
      Except.ok (GetResult.doc (some (env.fetch (JsVal.docRef path) t.transactionId))) := by
  have hcore : Transaction.getAllCore t [JsVal.docRef path] =
      Except.ok ⟨t.firestore, [JsVal.docRef path], t.transactionId⟩ :=
    getAllCore_of_docRefs t [path] h
  have hall : Transaction.getAll env t [JsVal.docRef path] =
      Except.ok [env.fetch (JsVal.docRef path) t.transactionId] := by
    simp [Transaction.getAll, hcore, DocumentGroup.get, Except.map]
  refine ⟨hall, ?_⟩
  simp [Transaction.get, WriteBatch.isEmpty, h, hall, Except.map]

/-- Witness for C2 at a fresh concrete attempt. -/
theorem get_single_doc_unwraps_getAll_witness :
    Transaction.getAll env0 p0 [JsVal.docRef "col/doc"] = Except.ok [0] ∧
    Transaction.get env0 p0 (JsVal.docRef "col/doc") =
      Except.ok (GetResult.doc (some 0)) :=
  get_single_doc_unwraps_getAll env0 p0 "col/doc" rfl

/-- Claim C3: for a valid reference list, given as a variadic list or as a single
array argument, `getAll` hands the full list — in input order — together with
the current `transactionId` to the `DocumentGroup`, and returns the snapshots in
input order: the i-th output is the fetch result of the i-th input, duplicates
included. -/
theorem getAll_order_preserved (env : Env) (t : Transaction) (docs : List String)
    (h : t.writeBatch = []) :
    Transaction.getAllCore t (docs.map JsVal.docRef) =
      Except.ok ⟨t.firestore, docs.map JsVal.docRef, t.transactionId⟩ ∧
    Transaction.getAllCore t [JsVal.arr (docs.map JsVal.docRef)] =
      Except.ok ⟨t.firestore, docs.map JsVal.docRef, t.transactionId⟩ ∧
    Transaction.getAll env t (docs.map JsVal.docRef) =
      Except.ok (docs.map (fun d => env.fetch (JsVal.docRef d) t.transactionId)) ∧
    Transaction.getAll env t [JsVal.arr (docs.map JsVal.docRef)] =
      Except.ok (docs.map (fun d => env.fetch (JsVal.docRef d) t.transactionId)) ∧
    ∀ i : Nat,
      (docs.map (fun d => env.fetch (JsVal.docRef d) t.transactionId))[i]? =
        (docs[i]?).map (fun d => env.fetch (JsVal.docRef d) t.transactionId) := by
  have h1 := getAllCore_of_docRefs t docs h
  have h2 := getAllCore_of_arr_docRefs t docs h
  refine ⟨h1, h2, ?_, ?_, ?_⟩
  · simp [Transaction.getAll, h1, DocumentGroup.get, Except.map, List.map_map,
      Function.comp]
  · simp [Transaction.getAll, h2, DocumentGroup.get, Except.map, List.map_map,
      Function.comp]
  · intro i
    simp [List.getElem?_map]

/-- Witness for C3 on a concrete three-element list with a duplicate. -/
theorem getAll_order_preserved_witness :
    p0.writeBatch = [] ∧
    Transaction.getAll env0 p0
        [JsVal.docRef "a", JsVal.docRef "b", JsVal.docRef "a"] =
      Except.ok [env0.fetch (JsVal.docRef "a") none,
        env0.fetch (JsVal.docRef "b") none, env0.fetch (JsVal.docRef "a") none] := by
  have h := getAll_order_preserved env0 p0 ["a", "b", "a"] rfl
  exact ⟨rfl, h.2.2.1⟩

/-- Claim C4: `update` called with fewer than two total arguments fails with the
arity validator's error before anything reaches the write batch — the attempt
state, its write batch included, is returned unchanged. -/
theorem update_min_arguments (t : Transaction) (args : List JsVal)
    (h : args.length < 2) :
    Transaction.update t args =
      (t, some (JsErr.validatorMinNumberOfArguments "update" 2)) := by
  cases args with
  | nil => rfl
  | cons a rest =>
      cases rest with
      | nil => rfl
      | cons b rest2 =>
          simp [List.length_cons] at h
          omega

/-- Witness for C4 with a single-argument call. -/
theorem update_min_arguments_witness :
    ([JsVal.docRef "col/doc"] : List JsVal).length < 2 ∧
    Transaction.update p0 [JsVal.docRef "col/doc"] =
      (p0, some (JsErr.validatorMinNumberOfArguments "update" 2)) :=
  ⟨by decide, update_min_arguments p0 [JsVal.docRef "col/doc"] (by decide)⟩

/-- Claim C5: an attempt constructed from a previous failed attempt reuses that
attempt's `requestTag` unchanged and starts with a fresh, empty write batch; an
attempt constructed without a previous attempt takes the freshly generated tag
(and also starts empty). -/
theorem retry_construction (fs : Firestore) (p : Transaction) (g g2 : Nat) :
    (Transaction.construct fs (some p) g).requestTag = p.requestTag ∧
    (Transaction.construct fs (some p) g).writeBatch = [] ∧
    (Transaction.construct fs none g2).requestTag = g2 ∧
    (Transaction.construct fs none g2).writeBatch = [] :=
  ⟨rfl, rfl, rfl, rfl⟩

/-- Claim C6: `begin()` sends a request carrying the database name; the request
carries a retry marker (referencing the previous attempt's `transactionId`) if
and only if the attempt was constructed with a previous attempt; and on success
the server's returned transaction id is stored on the attempt. -/
theorem begin_request_and_id (env : Env) (t : Transaction) :
    (t.beginRequest).database = t.firestore.formattedName ∧
    ((t.beginRequest).retryTransaction.isSome ↔ t.previousTransaction.isSome) ∧
    (∀ p, t.previousTransaction = some p →
      (t.beginRequest).retryTransaction = some p.transactionId) ∧
    (t.previousTransaction = none → (t.beginRequest).retryTransaction = none) ∧
    (Transaction.begin env t).transactionId =
      some (env.beginResp t.firestore (t.beginRequest).retryTransaction) := by
  refine ⟨rfl, ?_, ?_, ?_, rfl⟩
  · cases hp : t.previousTransaction <;> simp [Transaction.beginRequest, hp]
  · intro p hp
    simp [Transaction.beginRequest, hp]
  · intro hp
    simp [Transaction.beginRequest, hp]

/-- Witness for C6: the retry attempt's request carries `p0`'s id, the fresh
attempt's request carries no marker. -/
theorem begin_request_and_id_witness :
    (tRetry.beginRequest).retryTransaction = some p0.transactionId ∧
    (p0.beginRequest).retryTransaction = none :=
  ⟨(begin_request_and_id env0 tRetry).2.2.1 p0 rfl,
   (begin_request_and_id env0 p0).2.2.2.1 rfl⟩

/-- Claim C7: `commit()` delegates to the write batch's commit with exactly the
attempt's current `transactionId` and `requestTag`, and the writes sent are
exactly the operations buffered via `create`/`set`/`update`/`delete` since the
attempt was constructed, in issue order. -/
theorem commit_delegates_buffered (env : Env) (fs : Firestore)
    (prev : Option Transaction) (g : Nat) (acts : List TxAction) :
    Transaction.commit (runActions env (Transaction.construct fs prev g) acts) =
      { transactionId := (runActions env (Transaction.construct fs prev g) acts).transactionId
        requestTag := (runActions env (Transaction.construct fs prev g) acts).requestTag
        writes := bufferedOps acts } := by
  have hw := writeBatch_runActions env (Transaction.construct fs prev g) acts
  rw [show (Transaction.construct fs prev g).writeBatch = [] from rfl,
    List.nil_append] at hw
  simp [Transaction.commit, hw]

/-- Claim C8 is false of the code: on a fresh attempt whose `transactionId` is
still unset and whose batch is empty, `get` with a query does not fail — it
executes the query, passing the unset (`none`) id along. -/
theorem get_query_before_begin_counterexample :
    Transaction.get env0 p0 (JsVal.query ⟨5⟩) =
      Except.ok (GetResult.query (env0.queryGet ⟨5⟩ none)) ∧
    p0.transactionId = none ∧
    p0.writeBatch = [] :=
  ⟨rfl, rfl, rfl⟩

/-- Claim C8 (amended): `get` on a query performs no precondition check on
`transactionId`; whenever the write batch is empty it executes the query with
the current — possibly unset — `transactionId`. -/
theorem get_query_uses_current_id (env : Env) (t : Transaction) (q : Query)
    (h : t.writeBatch = []) :
    Transaction.get env t (JsVal.query q) =
      Except.ok (GetResult.query (env.queryGet q t.transactionId)) := by
  simp [Transaction.get, WriteBatch.isEmpty, h]

/-- Witness for the amended C8 at a fresh attempt (id still unset). -/
theorem get_query_uses_current_id_witness :
    Transaction.get env0 p0 (JsVal.query ⟨3⟩) =
      Except.ok (GetResult.query (env0.queryGet ⟨3⟩ p0.transactionId)) :=
  get_query_uses_current_id env0 p0 ⟨3⟩ rfl

/-- Claim C9: within one attempt the guard is monotonic — any operation sequence
only ever appends to the write batch, so a non-empty batch stays non-empty and
every subsequent read (`get` or `getAll`) on the attempt fails with the
sequencing error, however many reads and writes follow. -/
theorem guard_monotonic (env : Env) (t : Transaction) (acts : List TxAction) :
    (runActions env t acts).writeBatch = t.writeBatch ++ bufferedOps acts ∧
    (t.writeBatch ≠ [] →
      (runActions env t acts).writeBatch ≠ [] ∧
      (∀ v, Transaction.get env (runActions env t acts) v =
        Except.error sequencingError) ∧
      (∀ args, Transaction.getAll env (runActions env t acts) args =
        Except.error sequencingError)) := by
  have hw := writeBatch_runActions env t acts
  refine ⟨hw, fun hne => ?_⟩
  have hne2 : (runActions env t acts).writeBatch ≠ [] := by
    rw [hw]
    intro hcontra
    exact hne (List.append_eq_nil.mp hcontra).1
  have hfalse := isEmpty_false_of_ne_nil hne2
  exact ⟨hne2, fun v => get_error_of_not_isEmpty env _ v hfalse,
    fun args => getAll_error_of_not_isEmpty env _ args hfalse⟩

/-- Witness for C9: after one buffered `create`, a later read fails even with a
read and another write in between. -/
theorem guard_monotonic_witness :
    t1.writeBatch ≠ [] ∧
    Transaction.get env0
        (runActions env0 t1 [TxAction.get (JsVal.docRef "x"),
          TxAction.set (JsVal.docRef "y") JsVal.other none])
        (JsVal.docRef "z") =
      Except.error sequencingError := by
  have hne : t1.writeBatch ≠ [] := by
    simp [t1, p0, Transaction.construct, Transaction.create]
  exact ⟨hne, ((guard_monotonic env0 t1 _).2 hne).2.1 (JsVal.docRef "z")⟩

/-- Claim C10: both reads check batch emptiness before any argument validation —
with a non-empty batch, a malformed `get` argument still yields the sequencing
error (never the refOrQuery type error) and a `getAll` list led by a
non-reference still yields the sequencing error (never the validator's
positional error). -/
theorem guard_precedes_validation (env : Env) (t : Transaction)
    (elems : List JsVal) (h : t.writeBatch ≠ []) :
    Transaction.get env t JsVal.other = Except.error sequencingError ∧
    Transaction.get env t JsVal.other ≠
      Except.error (JsErr.thrown INVALID_REF_OR_QUERY_MSG) ∧
    Transaction.getAll env t (JsVal.other :: elems) = Except.error sequencingError ∧
    (∀ i, Transaction.getAll env t (JsVal.other :: elems) ≠
      Except.error (JsErr.validatorNotDocumentReference i)) := by
  have hfalse := isEmpty_false_of_ne_nil h
  have hget := get_error_of_not_isEmpty env t JsVal.other hfalse
  have hall := getAll_error_of_not_isEmpty env t (JsVal.other :: elems) hfalse
  refine ⟨hget, ?_, hall, ?_⟩
  · rw [hget]
    intro hcontra
    exact seq_ne_invalid_arg (Except.error.inj hcontra)
  · intro i
    rw [hall]
    intro hcontra
    have hinj := Except.error.inj hcontra
    simp [sequencingError] at hinj

/-- Witness for C10 on a concrete attempt with one buffered write and malformed
read arguments. -/
theorem guard_precedes_validation_witness :
    t1.writeBatch ≠ [] ∧
    Transaction.get env0 t1 JsVal.other = Except.error sequencingError ∧
    Transaction.getAll env0 t1 [JsVal.other] = Except.error sequencingError := by
  have hne : t1.writeBatch ≠ [] := by
    simp [t1, p0, Transaction.construct, Transaction.create]
  exact ⟨hne, (guard_precedes_validation env0 t1 [] hne).1,
    (guard_precedes_validation env0 t1 [] hne).2.2.1⟩
